import Mathlib

/-!
Shallow embedding of the transcription backend in `backend/main.py` of the
youtube-srt-transcriber repository, together with theorems checking the
specified behaviour of its core: chunk splitting, offset correction,
SRT rendering, segment filtering, script normalization, URL validation,
credential checks, the download endpoint's filename check, the live-session
loop and the temporary-file lifecycle of the transcription pipeline.

Strings are modelled as `List Char`; seconds as `ℚ`; the external tools
(yt-dlp, ffmpeg, the HTTP backends) as oracle functions passed in as
parameters, with the calls a run makes to them recorded in a trace so that
"never invokes the tool" is provable.
-/

namespace Transcriber

/-- Python strings, modelled as lists of characters. -/
abbrev Str := List Char

/-- Python `str.strip()`: remove whitespace from both ends. -/
def pyStrip (s : Str) : Str :=
  ((s.dropWhile Char.isWhitespace).reverse.dropWhile Char.isWhitespace).reverse

/-- Modelled from the spec: the external OpenCC "s2t" converter used by
`_convert_chinese` is a deterministic simplified-to-traditional Han-script
conversion; we embed a representative finite character table. Characters
outside the table are left unchanged, and the traditional targets are not
themselves table keys. -/
def s2tChar (c : Char) : Char :=
  if c = '简' then '簡'
  else if c = '体' then '體'
  else if c = '发' then '發'
  else if c = '后' then '後'
  else c

/-- `opencc.OpenCC("s2t").convert`, character-wise over the modelled table. -/
def s2tConvert (s : Str) : Str := s.map s2tChar

/-- `_convert_chinese(text, language)`: for `language == "yue"` apply the
simplified-to-traditional conversion, otherwise return the text unchanged. -/
def convertChinese (text : Str) (language : Str) : Str :=
  if language = "yue".toList then s2tConvert text else text

/-- Decimal digits of `n`, most significant first (fuel-based so that it
reduces in the kernel); mirrors Python decimal formatting of a natural. -/
def natDigitsAux : Nat → Nat → Str
  | 0, _ => []
  | fuel + 1, n =>
    if n < 10 then [Nat.digitChar n]
    else natDigitsAux fuel (n / 10) ++ [Nat.digitChar (n % 10)]

/-- Decimal representation of a natural number. -/
def natDigits (n : Nat) : Str := natDigitsAux (n + 1) n

/-- Left-pad with `'0'` to width `w` (Python zero-padded formatting of a
nonnegative value: pads but never truncates). -/
def padZ (w : Nat) (s : Str) : Str := List.replicate (w - s.length) '0' ++ s

/-- Python `f"{n:02d}"` for a natural `n`. -/
def fmt2 (n : Nat) : Str := padZ 2 (natDigits n)

/-- Python `f"{n:03d}"` for a natural `n`. -/
def fmt3 (n : Nat) : Str := padZ 3 (natDigits n)

/-- Python `f"{i:02d}"` over `Int` (sign counts toward the width). -/
def fmtInt2 (i : Int) : Str :=
  if i < 0 then '-' :: padZ 1 (natDigits (-i).toNat) else fmt2 i.toNat

/-- Python `f"{i:03d}"` over `Int` (sign counts toward the width). -/
def fmtInt3 (i : Int) : Str :=
  if i < 0 then '-' :: padZ 2 (natDigits (-i).toNat) else fmt3 i.toNat

/-- Python `x % y` on numbers: the remainder whose sign follows the divisor,
`x - y * floor (x / y)`. -/
def pyMod (x y : ℚ) : ℚ := x - y * ⌊x / y⌋

/-- `_format_ts(seconds)`: render seconds as `HH:MM:SS,mmm` with zero-padded
fields (`h = seconds // 3600`, `m = (seconds % 3600) // 60`,
`s = seconds % 60`, `ms = (seconds % 1) * 1000`, each truncated to int). -/
def formatTs (q : ℚ) : Str :=
  fmtInt2 ⌊q / 3600⌋ ++ ':' ::
    (fmtInt2 ⌊pyMod q 3600 / 60⌋ ++ ':' ::
      (fmtInt2 ⌊pyMod q 60⌋ ++ ',' :: fmtInt3 ⌊pyMod q 1 * 1000⌋))

/-- A transcription segment: `.text`, `.start`, `.end` of the source
(`end` is reserved in Lean, so the end time is called `stop`). -/
structure Seg where
  text : Str
  start : ℚ
  stop : ℚ
  deriving DecidableEq

/-- The four lines `_build_srt` appends for one kept segment: the 1-based
counter, the timestamp line with `-->` surrounded by single spaces, the
script-normalized stripped text, and an empty line. -/
def entryLines (lang : Str) (k : Nat) (s : Seg) : List Str :=
  [natDigits k,
   formatTs s.start ++ ' ' :: '-' :: '-' :: '>' :: ' ' :: formatTs s.stop,
   convertChinese (pyStrip s.text) lang,
   []]

/-- The accumulation loop of `_build_srt`: skip segments whose stripped text
is empty, otherwise emit the four entry lines and advance the counter. -/
def srtAux (lang : Str) : Nat → List Seg → List Str
  | _, [] => []
  | idx, s :: rest =>
    if (pyStrip s.text).isEmpty then srtAux lang idx rest
    else entryLines lang idx s ++ srtAux lang (idx + 1) rest

/-- The `lines` list built by `_build_srt(segments, language)`. -/
def srtLines (segs : List Seg) (lang : Str) : List Str := srtAux lang 1 segs

/-- `_build_srt(segments, language)`: the lines joined by newlines. -/
def buildSrt (segs : List Seg) (lang : Str) : Str :=
  List.intercalate ['\n'] (srtLines segs lang)

/-- The segments `_build_srt` keeps: those whose stripped text is
non-empty. -/
def keptSegs (segs : List Seg) : List Seg :=
  segs.filter fun s => !(pyStrip s.text).isEmpty

/-- Spec-shaped rendering: enumerate the kept segments sequentially from `i`
and emit the entry lines of each in order. -/
def specEntriesFrom (lang : Str) (i : Nat) (segs : List Seg) : List Str :=
  (((keptSegs segs).enumFrom i).map fun p => entryLines lang p.1 p.2).flatten

/-- Spec-shaped rendering with 1-based numbering. -/
def specEntries (segs : List Seg) (lang : Str) : List Str := specEntriesFrom lang 1 segs

/-- Removal of bracketed non-speech tags (square-bracket spans), as in the
spec's description of the assembler; `inTag` tracks an open bracket. -/
def stripBracketsAux : Bool → Str → Str
  | _, [] => []
  | false, '[' :: rest => stripBracketsAux true rest
  | false, c :: rest => c :: stripBracketsAux false rest
  | true, ']' :: rest => stripBracketsAux false rest
  | true, _ :: rest => stripBracketsAux true rest

/-- Spec-side normalization of a segment text: trim bracketed non-speech
tags, then whitespace. -/
def trimmedSpec (s : Str) : Str := pyStrip (stripBracketsAux false s)

/-- A timestamp in the exact claimed shape: two-digit hours, minutes and
seconds, three-digit milliseconds, all decimal digits, with the `:`/`:`/`,`
separators. -/
def tsShape (t : Str) : Prop :=
  ∃ hh mm ss ms : Str,
    hh.length = 2 ∧ mm.length = 2 ∧ ss.length = 2 ∧ ms.length = 3 ∧
    (hh ++ mm ++ ss ++ ms).all Char.isDigit = true ∧
    t = hh ++ ':' :: (mm ++ ':' :: (ss ++ ',' :: ms))

/-- The per-chunk offset rewrite in `transcribe_youtube`: each raw segment
from a chunk at offset `o` has `o` added to its start and end times, text
untouched. -/
def offsetSegs (o : ℚ) (segs : List Seg) : List Seg :=
  segs.map fun s => ⟨s.text, s.start + o, s.stop + o⟩

/-- The chunk loop of `transcribe_youtube` restricted to its segment
accumulation: per-chunk raw segments are offset and appended in chunk
order into `all_segments`. -/
def assembleLoop : List (ℚ × List Seg) → List Seg
  | [] => []
  | c :: rest => offsetSegs c.1 c.2 ++ assembleLoop rest

/-- Files the pipeline touches: the downloaded source audio and the cut
chunk files (identified by loop index, standing for the fresh uuid paths). -/
inductive AFile
  | original
  | chunk (i : Nat)
  deriving DecidableEq

/-- `GROQ_MAX_FILE_SIZE`: 24 MiB. -/
def groqMaxFileSize : Nat := 24 * 1024 * 1024

/-- `CHUNK_DURATION_SEC`: 600-second chunks. -/
def chunkDurationSec : ℚ := 600

/-- The cut loop of `_split_audio`. `cut i` models the ffmpeg invocation of
iteration `i` (whose window starts at `600 * i` seconds): `none` when ffmpeg
exits non-zero or produces no file, `some size` when it produces a file of
`size` bytes; a file under 1000 bytes is deleted and ends the loop. `fuel`
bounds the number of iterations modelled. -/
def splitLoop (cut : Nat → Option Nat) : Nat → Nat → ℚ → List (AFile × ℚ)
  | 0, _, _ => []
  | fuel + 1, idx, offset =>
    match cut idx with
    | none => []
    | some sz =>
      if sz < 1000 then []
      else (AFile.chunk idx, offset) :: splitLoop cut fuel (idx + 1) (offset + chunkDurationSec)

/-- `_split_audio(audio_path)`: a single original chunk at offset `0` when
the file is at or under the size limit, otherwise the cut loop, falling back
to the original file when no usable chunk is produced. -/
def splitAudio (size : Nat) (cut : Nat → Option Nat) (fuel : Nat) : List (AFile × ℚ) :=
  if size ≤ groqMaxFileSize then [(AFile.original, 0)]
  else
    let chunks := splitLoop cut fuel 0 0
    if chunks.isEmpty then [(AFile.original, 0)] else chunks

/-- Chunk files created by the split loop and still on disk when it returns
(the under-1000-byte cut is unlinked inside `_split_audio` itself, and a
failed cut produces no file). -/
def chunkFiles (chunks : List (AFile × ℚ)) : List AFile :=
  chunks.filterMap fun c =>
    match c.1 with
    | AFile.chunk i => some (AFile.chunk i)
    | AFile.original => none

/-- The transcription loop of `transcribe_youtube`, tracking live temporary
files. A chunk whose transcription call raises escapes to the `except`
handler, which returns a 500 response and performs no cleanup; a transcribed
chunk file is unlinked right after its call when it is not the original
file; after the loop the SRT is written and the source audio unlinked. -/
def trLoop (tr : AFile → Option (List Seg)) :
    List (AFile × ℚ) → List Seg → List AFile → Option (List Seg) × List AFile
  | [], acc, files => (some acc, files.erase AFile.original)
  | (f, o) :: rest, acc, files =>
    match tr f with
    | none => (none, files)
    | some segs =>
      trLoop tr rest (acc ++ offsetSegs o segs)
        (if f = AFile.original then files else files.erase f)

/-- `transcribe_youtube` after URL validation and download: split the audio,
transcribe chunk by chunk with offset correction, and return the assembled
segments; the second component is the list of temporary files still on disk
when the handler returns its response. -/
def runTranscribe (size : Nat) (cut : Nat → Option Nat) (fuel : Nat)
    (tr : AFile → Option (List Seg)) : Option (List Seg) × List AFile :=
  let chunks := splitAudio size cut fuel
  trLoop tr chunks [] (AFile.original :: chunkFiles chunks)

/-- Messages the live session sends: a per-frame transcription result, or
the error message sent from the handler's exception path. -/
inductive LiveOut
  | text (t : Str)
  | errMsg (e : Str)
  deriving DecidableEq

/-- The receive loop of `live_stt` once the init message fixed `lang`.
Each inbound frame is `(size, id)`; frames under 100 bytes are skipped.
Otherwise the frame is transcoded (`conv`, for `_convert_to_wav`) and
transcribed (`tr`), both fallible; an exception from either escapes the
loop to the handler's `except` clause, which sends one error message and
returns, ending the session. The empty frame list is the disconnect path. -/
def liveLoop (lang : Str) (conv : Nat → Except Str Str) (tr : Str → Except Str Str) :
    List (Nat × Nat) → List LiveOut
  | [] => []
  | (sz, pid) :: rest =>
    if sz < 100 then liveLoop lang conv tr rest
    else
      match conv pid with
      | Except.error e => [LiveOut.errMsg e]
      | Except.ok wav =>
        match tr wav with
        | Except.error e => [LiveOut.errMsg e]
        | Except.ok raw =>
          let t := pyStrip raw
          LiveOut.text (if t.isEmpty then t else convertChinese t lang) ::
            liveLoop lang conv tr rest

/-- Backend call outcomes: the missing-credentials error raised before any
HTTP request, versus a failure of the HTTP call itself — two distinct
constructors, as the spec requires them to be distinguishable. -/
inductive BackendErr
  | missingCreds (msg : Str)
  | httpFailure (code : Nat)
  deriving DecidableEq

/-- Python truthiness test `not KEY` on an optional environment variable
(unset or empty are both falsy). -/
def keyFalsy : Option Str → Bool
  | none => true
  | some s => s.isEmpty

/-- `_call_ollama(text, mode)`: raise the missing-credentials error before
contacting the backend when `OLLAMA_API_KEY` is unset; otherwise issue
exactly one HTTP request (the trace in the second component records the
request payloads sent). -/
def callOllama (key : Option Str) (text mode : Str)
    (backend : Str → Except Nat Str) : Except BackendErr Str × List Str :=
  if keyFalsy key then
    (Except.error (BackendErr.missingCreds "OLLAMA_API_KEY not configured".toList), [])
  else
    match backend (mode ++ text) with
    | Except.ok body => (Except.ok body, [mode ++ text])
    | Except.error code => (Except.error (BackendErr.httpFailure code), [mode ++ text])

/-- `_call_elevenlabs_scribe(audio_path, language)`: raise the
missing-credentials error before contacting the backend when
`ELEVENLABS_API_KEY` is unset; otherwise issue exactly one HTTP request. -/
def callScribe (key : Option Str) (audioPath language : Str)
    (backend : Str → Except Nat Str) : Except BackendErr Str × List Str :=
  if keyFalsy key then
    (Except.error (BackendErr.missingCreds "ELEVENLABS_API_KEY not configured".toList), [])
  else
    match backend (audioPath ++ language) with
    | Except.ok body => (Except.ok body, [audioPath ++ language])
    | Except.error code => (Except.error (BackendErr.httpFailure code), [audioPath ++ language])

/-- Modelled from the spec: the Groq SDK client (an external collaborator
not in the repository) is constructed at process start from `GROQ_API_KEY`
and raises a missing-credentials error at construction when the key is
absent, so no Groq transcription request can reach an HTTP call without
credentials. -/
def groqClientInit (key : Option Str) : Except BackendErr Unit :=
  if key = none then
    Except.error (BackendErr.missingCreds "The api_key client option must be set".toList)
  else Except.ok ()

/-- `YOUTUBE_URL_PATTERN` as an anchored match: an http or https scheme, an
optional `www.` and then one of the three allow-listed youtube forms. -/
def youtubeUrlOk (u : Str) : Bool :=
  let rest :=
    if ("https://".toList).isPrefixOf u then some (u.drop 8)
    else if ("http://".toList).isPrefixOf u then some (u.drop 7)
    else none
  match rest with
  | none => false
  | some r =>
    let r2 := if ("www.".toList).isPrefixOf r then r.drop 4 else r
    ("youtube.com/watch?".toList).isPrefixOf r2 ||
      ("youtu.be/".toList).isPrefixOf r2 ||
      ("youtube.com/shorts/".toList).isPrefixOf r2

/-- The entry of `transcribe_youtube`: a non-matching URL yields the 400
invalid-URL response before anything else runs; a matching URL proceeds to
`_download_audio` (the trace records the URLs handed to the download tool). -/
def transcribeEntry (url : Str) : Option Nat × List Str :=
  if youtubeUrlOk url then (none, [url]) else (some 400, [])

/-- The path-traversal check of `download_file`: reject a filename holding a
slash, a backslash, or the substring `..`. -/
def filenameBad (f : Str) : Bool :=
  f.contains '/' || f.contains '\\' || decide ("..".toList <:+: f)

/-- Responses of the download endpoint. -/
inductive DlResult
  | invalid
  | notFound
  | serve (path : Str)
  deriving DecidableEq

/-- `download_file(filename)`: reject traversal attempts with a 400 before
touching the filesystem; otherwise resolve the name inside the SRT output
directory and serve the file when present (the trace in the second
component records the files read). -/
def downloadFile (dir : Str) (onDisk : Str → Bool) (f : Str) : DlResult × List Str :=
  if filenameBad f then (DlResult.invalid, [])
  else
    let p := dir ++ '/' :: f
    if onDisk p then (DlResult.serve p, [p]) else (DlResult.notFound, [])

/-- A concrete cut oracle: three full cuts and then exhaustion. -/
def cutEx : Nat → Option Nat := fun i => if i < 3 then some 5000 else none

/-- A concrete cut oracle: two full cuts and then exhaustion. -/
def cutTwo : Nat → Option Nat := fun i => if i < 2 then some 2000 else none

/-- A concrete transcode oracle that always succeeds, mapping a frame id to
a distinct wav identifier. -/
def convEx : Nat → Except Str Str := fun p => Except.ok (natDigits p)

/-- A concrete transcription oracle failing exactly on the wav of frame 0. -/
def trEx : Str → Except Str Str := fun w =>
  if w = natDigits 0 then Except.error "boom".toList else Except.ok "hi".toList

/-- A concrete transcode oracle that always fails. -/
def convBad : Nat → Except Str Str := fun _ => Except.error "boom".toList

end Transcriber

namespace Transcriber

/-! Helper lemmas. -/

lemma srtAux_spec (lang : Str) : ∀ (segs : List Seg) (i : Nat),
    srtAux lang i segs = specEntriesFrom lang i segs := by
  intro segs
  induction segs with
  | nil => intro i; rfl
  | cons s rest ih =>
    intro i
    by_cases h : (pyStrip s.text).isEmpty
    · simp [srtAux, h, ih, specEntriesFrom, keptSegs, List.filter_cons]
    · simp [srtAux, h, ih, specEntriesFrom, keptSegs, List.filter_cons, List.enumFrom]

lemma srtAux_length (lang : Str) : ∀ (segs : List Seg) (i : Nat),
    (srtAux lang i segs).length = 4 * (keptSegs segs).length := by
  intro segs
  induction segs with
  | nil => intro i; rfl
  | cons s rest ih =>
    intro i
    by_cases h : (pyStrip s.text).isEmpty
    · simpa [srtAux, h, keptSegs, List.filter_cons] using ih i
    · simp [srtAux, h, keptSegs, List.filter_cons, entryLines, ih]
      omega

lemma assembleLoop_eq (chunks : List (ℚ × List Seg)) :
    assembleLoop chunks = (chunks.map fun c => offsetSegs c.1 c.2).flatten := by
  induction chunks with
  | nil => rfl
  | cons c rest ih => simp [assembleLoop, ih]

lemma splitLoop_stop0 (cut : Nat → Option Nat) (fuel : Nat)
    (h : cut 0 = none ∨ ∃ sz, cut 0 = some sz ∧ sz < 1000) :
    splitLoop cut fuel 0 0 = [] := by
  cases fuel with
  | zero => rfl
  | succ f =>
    rcases h with h | ⟨sz, hsz, hlt⟩
    · simp [splitLoop, h]
    · simp [splitLoop, hsz, hlt]

lemma splitLoop_offsets (cut : Nat → Option Nat) :
    ∀ (fuel idx : Nat) (off : ℚ),
      (splitLoop cut fuel idx off).map Prod.snd
        = (List.range (splitLoop cut fuel idx off).length).map
            fun k : Nat => off + chunkDurationSec * (k : ℚ) := by
  intro fuel
  induction fuel with
  | zero => intro idx off; rfl
  | succ f ih =>
    intro idx off
    simp only [splitLoop]
    cases hc : cut idx with
    | none => simp
    | some sz =>
      by_cases hsz : sz < 1000
      · simp [hsz]
      · simp only [hsz, if_false, List.map_cons, List.length_cons]
        rw [ih (idx + 1) (off + chunkDurationSec), List.range_succ_eq_map]
        simp only [List.map_cons, List.map_map]
        congr 1
        · simp
        · refine List.map_congr_left fun k _ => ?_
          simp only [Function.comp_apply]
          push_cast
          ring

set_option maxRecDepth 4000 in
lemma fmt2_ok : ∀ n, n < 100 → (fmt2 n).length = 2 ∧ (fmt2 n).all Char.isDigit = true := by
  decide

set_option maxRecDepth 40000 in
lemma fmt3_ok : ∀ n, n < 1000 → (fmt3 n).length = 3 ∧ (fmt3 n).all Char.isDigit = true := by
  decide

lemma fmtInt2_nonneg {i : Int} (h : 0 ≤ i) : fmtInt2 i = fmt2 i.toNat := by
  simp [fmtInt2, not_lt.mpr h]

lemma fmtInt3_nonneg {i : Int} (h : 0 ≤ i) : fmtInt3 i = fmt3 i.toNat := by
  simp [fmtInt3, not_lt.mpr h]

lemma pyMod_nonneg (x : ℚ) {y : ℚ} (hy : 0 < y) : 0 ≤ pyMod x y := by
  have h2 : (⌊x / y⌋ : ℚ) * y ≤ x := (le_div_iff₀ hy).mp (Int.floor_le _)
  unfold pyMod
  nlinarith

lemma pyMod_lt (x : ℚ) {y : ℚ} (hy : 0 < y) : pyMod x y < y := by
  have h2 : x < ((⌊x / y⌋ : ℚ) + 1) * y := (div_lt_iff₀ hy).mp (Int.lt_floor_add_one _)
  unfold pyMod
  nlinarith

lemma tsShape_formatTs {q : ℚ} (h0 : 0 ≤ q) (h1 : q < 360000) : tsShape (formatTs q) := by
  have hy3600 : (0:ℚ) < 3600 := by norm_num
  have hy60 : (0:ℚ) < 60 := by norm_num
  have hy1 : (0:ℚ) < 1 := by norm_num
  have hh0 : (0:ℤ) ≤ ⌊q / 3600⌋ := Int.floor_nonneg.mpr (by positivity)
  have hh1 : ⌊q / 3600⌋ < 100 := by
    rw [Int.floor_lt, div_lt_iff₀ hy3600]
    push_cast
    linarith
  have hm0 : (0:ℤ) ≤ ⌊pyMod q 3600 / 60⌋ :=
    Int.floor_nonneg.mpr (div_nonneg (pyMod_nonneg q hy3600) (le_of_lt hy60))
  have hm1 : ⌊pyMod q 3600 / 60⌋ < 60 := by
    rw [Int.floor_lt, div_lt_iff₀ hy60]
    have := pyMod_lt q hy3600
    push_cast
    linarith
  have hs0 : (0:ℤ) ≤ ⌊pyMod q 60⌋ := Int.floor_nonneg.mpr (pyMod_nonneg q hy60)
  have hs1 : ⌊pyMod q 60⌋ < 60 := by
    rw [Int.floor_lt]
    have := pyMod_lt q hy60
    push_cast
    linarith
  have hms0 : (0:ℤ) ≤ ⌊pyMod q 1 * 1000⌋ :=
    Int.floor_nonneg.mpr (mul_nonneg (pyMod_nonneg q hy1) (by norm_num))
  have hms1 : ⌊pyMod q 1 * 1000⌋ < 1000 := by
    rw [Int.floor_lt]
    have := pyMod_lt q hy1
    push_cast
    linarith
  have n1 := fmt2_ok ⌊q / 3600⌋.toNat (by omega)
  have n2 := fmt2_ok ⌊pyMod q 3600 / 60⌋.toNat (by omega)
  have n3 := fmt2_ok ⌊pyMod q 60⌋.toNat (by omega)
  have n4 := fmt3_ok ⌊pyMod q 1 * 1000⌋.toNat (by omega)
  refine ⟨fmt2 ⌊q / 3600⌋.toNat, fmt2 ⌊pyMod q 3600 / 60⌋.toNat,
    fmt2 ⌊pyMod q 60⌋.toNat, fmt3 ⌊pyMod q 1 * 1000⌋.toNat,
    n1.1, n2.1, n3.1, n4.1, ?_, ?_⟩
  · simp [List.all_append, n1.2, n2.2, n3.2, n4.2]
  · simp only [formatTs, fmtInt2_nonneg hh0, fmtInt2_nonneg hm0,
      fmtInt2_nonneg hs0, fmtInt3_nonneg hms0]

lemma s2tChar_idem (c : Char) : s2tChar (s2tChar c) = s2tChar c := by
  by_cases h1 : c = '简'
  · subst h1; decide
  by_cases h2 : c = '体'
  · subst h2; decide
  by_cases h3 : c = '发'
  · subst h3; decide
  by_cases h4 : c = '后'
  · subst h4; decide
  have hc : s2tChar c = c := by simp [s2tChar, h1, h2, h3, h4]
  rw [hc]
  exact hc

/-! Claim theorems. -/

/-- C1: for every chunk with offset `o` and every raw segment `[s, e]` the
provider returned for that chunk, the assembled transcript contains that
segment with times exactly `[s + o, e + o]` and unchanged text, and the
assembly is the concatenation of the offset per-chunk lists in chunk
order. -/
theorem offset_correction_assembly
    (chunks : List (ℚ × List Seg)) (o : ℚ) (segs : List Seg)
    (hc : (o, segs) ∈ chunks) (s : Seg) (hs : s ∈ segs) :
    (⟨s.text, s.start + o, s.stop + o⟩ : Seg) ∈ assembleLoop chunks
      ∧ assembleLoop chunks = (chunks.map fun c => offsetSegs c.1 c.2).flatten := by
  refine ⟨?_, assembleLoop_eq chunks⟩
  rw [assembleLoop_eq, List.mem_flatten]
  refine ⟨offsetSegs o segs, ?_, ?_⟩
  · exact List.mem_map_of_mem _ hc
  · exact List.mem_map_of_mem _ hs

/-- C1 witness: a concrete chunk at offset 10 whose raw segment `[1, 2]`
ends up in the assembly at `[11, 12]`. -/
theorem offset_correction_assembly_witness :
    (⟨"a".toList, (1:ℚ) + 10, (2:ℚ) + 10⟩ : Seg)
      ∈ assembleLoop [((10:ℚ), [⟨"a".toList, 1, 2⟩])] :=
  (offset_correction_assembly [((10:ℚ), [⟨"a".toList, 1, 2⟩])] 10 [⟨"a".toList, 1, 2⟩]
    (List.mem_singleton_self _) ⟨"a".toList, 1, 2⟩ (List.mem_singleton_self _)).1

/-- C2: `_split_audio` always returns a non-empty list; a file at or under
the 24 MB limit yields exactly the original at offset 0; the offsets are
exactly `600 * k` for `k = 0, 1, 2, ...` in order; and when the first cut is
already unusable the single original file is returned instead of failing. -/
theorem split_audio_chunks (size : Nat) (cut : Nat → Option Nat) (fuel : Nat) :
    splitAudio size cut fuel ≠ []
    ∧ (size ≤ groqMaxFileSize → splitAudio size cut fuel = [(AFile.original, 0)])
    ∧ ((splitAudio size cut fuel).map Prod.snd
        = (List.range (splitAudio size cut fuel).length).map
            fun k : Nat => chunkDurationSec * (k : ℚ))
    ∧ ((cut 0 = none ∨ ∃ sz, cut 0 = some sz ∧ sz < 1000) →
        splitAudio size cut fuel = [(AFile.original, 0)]) := by
  by_cases hsize : size ≤ groqMaxFileSize
  · refine ⟨by simp [splitAudio, hsize], fun _ => by simp [splitAudio, hsize], ?_,
      fun _ => by simp [splitAudio, hsize]⟩
    simp [splitAudio, hsize, show List.range 1 = [0] from rfl]
  · by_cases hL : (splitLoop cut fuel 0 0).isEmpty
    · have he : splitAudio size cut fuel = [(AFile.original, 0)] := by
        simp [splitAudio, hsize, hL]
      refine ⟨by simp [he], fun _ => he, ?_, fun _ => he⟩
      simp [he, show List.range 1 = [0] from rfl]
    · have he : splitAudio size cut fuel = splitLoop cut fuel 0 0 := by
        simp [splitAudio, hsize, hL]
      refine ⟨?_, fun h => absurd h hsize, ?_, ?_⟩
      · rw [he]
        intro h
        rw [h] at hL
        simp at hL
      · rw [he]
        rw [splitLoop_offsets cut fuel 0 0]
        exact List.map_congr_left fun k _ => by ring
      · intro h
        exact absurd (splitLoop_stop0 cut fuel h) (by intro h2; rw [h2] at hL; simp at hL)

/-- C2 witness: a 30 MB file with three successful cuts splits into chunks
at offsets 0, 600, 1200 exactly. -/
theorem split_audio_chunks_witness :
    splitAudio 30000000 cutEx 10 ≠ []
    ∧ ((splitAudio 30000000 cutEx 10).map Prod.snd
        = (List.range (splitAudio 30000000 cutEx 10).length).map
            fun k : Nat => chunkDurationSec * (k : ℚ))
    ∧ (splitAudio 30000000 cutEx 10).map Prod.snd = [0, 600, 1200] := by
  refine ⟨(split_audio_chunks 30000000 cutEx 10).1,
    (split_audio_chunks 30000000 cutEx 10).2.2.1, ?_⟩
  norm_num [splitAudio, splitLoop, cutEx, groqMaxFileSize, chunkDurationSec]

/-- C3 (amended): the rendered subtitle text is exactly, for the k-th kept
segment (1-based, sequential), the three lines `k`, `start --> end` and the
text followed by a blank line, all joined by newlines; an empty transcript
renders to the empty string; and every timestamp of a time below 100 hours
(360000 s) has two-digit hours, minutes and seconds and three-digit
milliseconds. (The claim's unconditional "two-digit hours" fails at and
above 100 hours, where the hour field widens to three digits.) -/
theorem build_srt_format (segs : List Seg) (lang : Str) (q : ℚ)
    (h0 : 0 ≤ q) (h1 : q < 360000) :
    buildSrt segs lang = List.intercalate ['\n'] (specEntries segs lang)
    ∧ buildSrt [] lang = []
    ∧ tsShape (formatTs q) := by
  refine ⟨?_, rfl, tsShape_formatTs h0 h1⟩
  rw [buildSrt, srtLines, srtAux_spec]
  rfl

/-- C3 witness: the amended statement at the empty transcript and at 75
seconds. -/
theorem build_srt_format_witness :
    (0:ℚ) ≤ 75 ∧ (75:ℚ) < 360000
    ∧ (buildSrt [] "en".toList = [] ∧ tsShape (formatTs 75)) :=
  ⟨by norm_num, by norm_num, (build_srt_format [] "en".toList 75 (by norm_num) (by norm_num)).2⟩

/-- C3 counterexample: at 360000 seconds (100 hours) `_format_ts` renders a
three-digit hour field, so the claimed always-two-digit timestamp shape is
violated. -/
theorem build_srt_format_counterexample :
    formatTs (360000:ℚ) = "100:00:00,000".toList
    ∧ ¬ tsShape (formatTs (360000:ℚ)) := by
  have h1 : ⌊(360000:ℚ) / 3600⌋ = (100:ℤ) := by
    rw [Int.floor_eq_iff]
    norm_num
  have h2 : ⌊pyMod (360000:ℚ) 3600 / 60⌋ = (0:ℤ) := by
    rw [Int.floor_eq_iff, pyMod, h1]
    norm_num
  have h3 : ⌊pyMod (360000:ℚ) 60⌋ = (0:ℤ) := by
    have h60 : ⌊(360000:ℚ) / 60⌋ = (6000:ℤ) := by
      rw [Int.floor_eq_iff]
      norm_num
    rw [Int.floor_eq_iff, pyMod, h60]
    norm_num
  have h4 : ⌊pyMod (360000:ℚ) 1 * 1000⌋ = (0:ℤ) := by
    have hone : ⌊(360000:ℚ) / 1⌋ = (360000:ℤ) := by
      rw [Int.floor_eq_iff]
      norm_num
    rw [Int.floor_eq_iff, pyMod, hone]
    norm_num
  have key : formatTs (360000:ℚ) = "100:00:00,000".toList := by
    simp only [formatTs, h1, h2, h3, h4]
    decide
  refine ⟨key, ?_⟩
  rintro ⟨hh, mm, ss, ms, l1, l2, l3, l4, -, heq⟩
  rw [key] at heq
  have hlen := congrArg List.length heq
  simp [List.length_append, l1, l2, l3, l4] at hlen

/-- C4 (amended): `_build_srt` discards exactly the segments whose text is
empty after whitespace trimming — a leading blank segment produces no entry
and the rendered lines are those of the remaining segments, four lines per
kept segment. Bracketed non-speech tags are not trimmed by the code, so a
segment whose text is only such a tag is kept (see the counterexample). -/
theorem drop_blank_segments (segs : List Seg) (lang : Str) (b : Seg)
    (hb : pyStrip b.text = []) :
    srtLines (b :: segs) lang = srtLines segs lang
    ∧ (srtLines segs lang).length = 4 * (keptSegs segs).length := by
  constructor
  · simp [srtLines, srtAux, hb]
  · exact srtAux_length lang segs 1

/-- C4 witness: an all-whitespace segment is dropped and the remaining
one-segment transcript renders four lines (one entry). -/
theorem drop_blank_segments_witness :
    pyStrip ("  ".toList) = []
    ∧ (srtLines [⟨"  ".toList, 0, 1⟩, ⟨"hi".toList, 2, 3⟩] "en".toList
        = srtLines [⟨"hi".toList, 2, 3⟩] "en".toList
      ∧ (srtLines [⟨"hi".toList, 2, 3⟩] "en".toList).length
          = 4 * (keptSegs [⟨"hi".toList, 2, 3⟩]).length) :=
  ⟨by decide,
    drop_blank_segments [⟨"hi".toList, 2, 3⟩] "en".toList ⟨"  ".toList, 0, 1⟩ (by decide)⟩

/-- C4 counterexample: a segment whose text is `[music]` is empty after
trimming bracketed non-speech tags and whitespace, yet `_build_srt` emits a
full four-line subtitle entry for it — the code never strips bracketed
tags. -/
theorem drop_blank_segments_counterexample :
    trimmedSpec "[music]".toList = []
    ∧ (srtLines [⟨"[music]".toList, 0, 1⟩] "en".toList).length = 4 :=
  ⟨by decide, rfl⟩

/-- C5: `transcribe_youtube` has no unconditional cleanup: when the provider
call raises on the first chunk of a split run, the handler returns the
error response while the downloaded audio and both chunk files are still on
disk, contradicting the claim that every exit path removes all temporary
files. -/
theorem transcribe_cleanup_leak :
    (runTranscribe 25165825 cutTwo 10 (fun _ => none)).1 = none
    ∧ (runTranscribe 25165825 cutTwo 10 (fun _ => none)).2
        = [AFile.original, AFile.chunk 0, AFile.chunk 1]
    ∧ (runTranscribe 25165825 cutTwo 10 (fun _ => none)).2 ≠ [] := by
  refine ⟨rfl, rfl, ?_⟩
  intro h
  rw [show (runTranscribe 25165825 cutTwo 10 (fun _ => none)).2
      = [AFile.original, AFile.chunk 0, AFile.chunk 1] from rfl] at h
  exact List.noConfusion h

/-- C6 counterexample: with a transcription failure on the first frame, the
session emits the error message and then processes no further frames, even
though the second frame alone would transcribe successfully — the session
does not continue after a per-frame failure. -/
theorem live_error_counterexample :
    liveLoop "yue".toList convEx trEx [(200, 0), (200, 1)] = [LiveOut.errMsg "boom".toList]
    ∧ liveLoop "yue".toList convEx trEx [(200, 1)] = [LiveOut.text "hi".toList] := by
  constructor <;> rfl

/-- C6 (amended): in the streaming loop, a frame whose transcode or
transcription call fails causes the failure to be reported to the client as
one error message on the channel, after which the session terminates;
subsequent frames are not processed. -/
theorem live_error_reported_then_closed (lang : Str) (conv : Nat → Except Str Str)
    (tr : Str → Except Str Str) (sz pid : Nat) (rest : List (Nat × Nat)) (e : Str)
    (hsz : 100 ≤ sz) :
    (conv pid = Except.error e →
       liveLoop lang conv tr ((sz, pid) :: rest) = [LiveOut.errMsg e])
    ∧ (∀ w, conv pid = Except.ok w → tr w = Except.error e →
       liveLoop lang conv tr ((sz, pid) :: rest) = [LiveOut.errMsg e]) := by
  have hn : ¬ sz < 100 := by omega
  constructor
  · intro hc
    simp [liveLoop, hn, hc]
  · intro w hc ht
    simp [liveLoop, hn, hc, ht]

/-- C6 witness: a failing transcode on a 200-byte frame yields exactly the
error message. -/
theorem live_error_reported_then_closed_witness :
    (100 ≤ 200)
    ∧ liveLoop "yue".toList convBad trEx [(200, 0)] = [LiveOut.errMsg "boom".toList] :=
  ⟨by omega,
    (live_error_reported_then_closed "yue".toList convBad trEx 200 0 [] "boom".toList
      (by omega)).1 rfl⟩

/-- C7: with the required credential absent, `_call_ollama` and
`_call_elevenlabs_scribe` fail with their distinct missing-credentials
errors and issue no HTTP request (empty trace), and the Groq client
constructor fails at startup without its key. -/
theorem missing_credentials_before_http (key : Option Str) (hk : keyFalsy key = true)
    (text mode audioPath language : Str) (b1 b2 : Str → Except Nat Str) :
    callOllama key text mode b1
      = (Except.error (BackendErr.missingCreds "OLLAMA_API_KEY not configured".toList), [])
    ∧ callScribe key audioPath language b2
      = (Except.error (BackendErr.missingCreds "ELEVENLABS_API_KEY not configured".toList), [])
    ∧ groqClientInit none
      = Except.error (BackendErr.missingCreds "The api_key client option must be set".toList) := by
  refine ⟨?_, ?_, rfl⟩ <;> simp [callOllama, callScribe, hk]

/-- C7 witness: an unset key triggers the pre-HTTP missing-credentials
error with an empty request trace. -/
theorem missing_credentials_before_http_witness :
    keyFalsy none = true
    ∧ callOllama none "t".toList "summary".toList (fun _ => Except.ok [])
        = (Except.error (BackendErr.missingCreds "OLLAMA_API_KEY not configured".toList), []) :=
  ⟨rfl,
    (missing_credentials_before_http none rfl "t".toList "summary".toList "a".toList
      "yue".toList (fun _ => Except.ok []) (fun _ => Except.ok [])).1⟩

/-- C8: a URL that does not match the allow-listed youtube pattern makes
`transcribe_youtube` return the 400 invalid-URL response with no call to
the download tool. -/
theorem invalid_url_rejected_before_download (url : Str) (h : youtubeUrlOk url = false) :
    transcribeEntry url = (some 400, []) := by
  simp [transcribeEntry, h]

/-- C8 witness: `https://example.com/video` does not match and is rejected
with no download. -/
theorem invalid_url_rejected_before_download_witness :
    youtubeUrlOk "https://example.com/video".toList = false
    ∧ transcribeEntry "https://example.com/video".toList = (some 400, []) :=
  ⟨by decide, invalid_url_rejected_before_download _ (by decide)⟩

/-- C9: `_convert_chinese` is idempotent for every text and language tag,
and is the identity for every tag other than `yue`. -/
theorem convert_chinese_idempotent (text lang : Str) :
    convertChinese (convertChinese text lang) lang = convertChinese text lang
    ∧ (lang ≠ "yue".toList → convertChinese text lang = text) := by
  by_cases h : lang = "yue".toList
  · refine ⟨?_, fun hn => absurd h hn⟩
    simp only [convertChinese, if_pos h, s2tConvert, List.map_map]
    exact List.map_congr_left fun c _ => s2tChar_idem c
  · have he : convertChinese text lang = text := by
      simp only [convertChinese, if_neg h]
    exact ⟨by rw [he]; exact he, fun _ => he⟩

/-- C9 witness: idempotence at a concrete simplified-Chinese text under
`yue`, and identity under `en`. -/
theorem convert_chinese_idempotent_witness :
    convertChinese (convertChinese "简体字".toList "yue".toList) "yue".toList
      = convertChinese "简体字".toList "yue".toList
    ∧ convertChinese "简体字".toList "en".toList = "简体字".toList :=
  ⟨(convert_chinese_idempotent "简体字".toList "yue".toList).1,
    (convert_chinese_idempotent "简体字".toList "en".toList).2 (by decide)⟩

/-- C10: a filename holding a path separator or `..` makes `download_file`
return the 400 invalid response without reading any file, and every file
the endpoint serves is the straight join of the SRT directory with a
separator-free filename, hence directly inside that directory. -/
theorem download_filename_guard (dir : Str) (onDisk : Str → Bool) (f : Str) :
    (filenameBad f = true → downloadFile dir onDisk f = (DlResult.invalid, []))
    ∧ (∀ p reads, downloadFile dir onDisk f = (DlResult.serve p, reads) →
        p = dir ++ '/' :: f ∧ '/' ∉ f ∧ '\\' ∉ f ∧ ¬ ("..".toList <:+: f)) := by
  constructor
  · intro h
    simp [downloadFile, h]
  · intro p reads h
    simp only [downloadFile] at h
    by_cases hb : filenameBad f
    · rw [if_pos hb] at h
      simp at h
    · rw [if_neg hb] at h
      by_cases hd : onDisk (dir ++ '/' :: f)
      · rw [if_pos hd] at h
        have hp : DlResult.serve (dir ++ '/' :: f) = DlResult.serve p := congrArg Prod.fst h
        injection hp with hp
        simp [filenameBad, not_or] at hb
        exact ⟨hp.symm, hb.1.1, hb.1.2, hb.2⟩
      · rw [if_neg hd] at h
        simp at h

/-- C10 witness: the filename `..` is rejected with no file read, and a
plain `a.srt` is served from directly inside the SRT directory. -/
theorem download_filename_guard_witness :
    filenameBad "..".toList = true
    ∧ downloadFile "/tmp/srt_output".toList (fun _ => true) "..".toList = (DlResult.invalid, [])
    ∧ '/' ∉ "a.srt".toList :=
  ⟨rfl,
    (download_filename_guard "/tmp/srt_output".toList (fun _ => true) "..".toList).1 rfl,
    ((download_filename_guard "/tmp/srt_output".toList (fun _ => true) "a.srt".toList).2
      ("/tmp/srt_output".toList ++ '/' :: "a.srt".toList)
      ["/tmp/srt_output".toList ++ '/' :: "a.srt".toList] rfl).2.1⟩

end Transcriber
